import Mathlib

/-!
Verification of `api-tracking/diff-spec.py`, a script that compares two
Miro OpenAPI specification documents and reports added, removed and
changed endpoints and schemas.

JSON documents are modelled as Lean structures with `Option` fields
(`none` = key absent); JSON objects whose keys matter are modelled as
association lists with unique keys.  Python strings are Lean `String`s,
and the Python string operations used by the script (`str.upper`,
`str.lower`, `in` substring test, `sorted` comparison) are modelled
code-point-wise on `String.data`.
-/

/-- Code-point-wise lexicographic `≤` on character lists: the comparison
Python uses between two `str` values. -/
def charListLE : List Char → List Char → Bool
  | [], _ => true
  | _ :: _, [] => false
  | a :: as, b :: bs => if a < b then true else if b < a then false else charListLE as bs

/-- Python `a <= b` on strings (code-point lexicographic order). -/
def pyStrLE (a b : String) : Bool := charListLE a.data b.data

/-- Python `str.upper` (code-point-wise; agrees with Python on the ASCII
method names the script upper-cases). -/
def strUpper (s : String) : String := ⟨s.data.map Char.toUpper⟩

/-- Python `str.lower` (code-point-wise). -/
def strLower (s : String) : String := ⟨s.data.map Char.toLower⟩

/-- Python `needle in hay` substring containment. -/
def strContains (hay needle : String) : Bool :=
  (List.range (hay.data.length + 1)).any (fun i => needle.data.isPrefixOf (hay.data.drop i))

/-- Python `a < b` on `(method, path)` key pairs: tuple comparison is
lexicographic, strings compared code-point-wise.  This is the (total,
reflexive) order `sorted` induces on the keys. -/
def pyKeyLE (a b : String × String) : Bool :=
  if a.1 = b.1 then pyStrLE a.2 b.2 else pyStrLE a.1 b.1

/-- Python `a < b` on optional parameter names (`sorted` of a set of
names inside `diff_endpoints`).  A real Python run raises `TypeError`
when `None` is compared with a `str`: that happens inside
`diff_endpoints` itself, while building the change description for a
name-difference set that mixes an unnamed (`None`) parameter with named
ones, and the run dies before any diff is returned.  `pySortedOptNames`
below models that failure; the comparator here is the order `sorted`
realizes on the homogeneous or singleton collections where it
succeeds. -/
def pyOptNameLE (a b : Option String) : Bool :=
  match a, b with
  | none, _ => true
  | some _, none => false
  | some x, some y => pyStrLE x y

/-- Python `sorted` on a list of strings. -/
def sortStrings (l : List String) : List String :=
  List.insertionSort (fun a b => pyStrLE a b = true) l

/-- Python `sorted` on a list of `(method, path)` keys. -/
def sortKeys (l : List (String × String)) : List (String × String) :=
  List.insertionSort (fun a b => pyKeyLE a b = true) l

/-- Python `sorted` on a list of optional parameter names. -/
def sortOptNames (l : List (Option String)) : List (Option String) :=
  List.insertionSort (fun a b => pyOptNameLE a b = true) l

/-- Python dict access `m[k]` / `m.get(k)` over an association list. -/
def dictLookup {κ α : Type} [DecidableEq κ] (k : κ) : List (κ × α) → Option α
  | [] => none
  | kv :: rest => if kv.1 = k then some kv.2 else dictLookup k rest

/-- Python `set(m.keys())` of a dict modelled as an association list. -/
def dictKeys {κ α : Type} [DecidableEq κ] (m : List (κ × α)) : List κ :=
  (m.map Prod.fst).dedup

/-- A member of a JSON `parameters` array as read by the script:
`p.get("name")`, `p.get("in")`, `p.get("required", False)`. -/
structure RawParam where
  name : Option String
  in_ : Option String
  required : Option Bool
deriving DecidableEq

/-- A JSON operation object under a path item, restricted to the keys
the script reads. -/
structure RawOperation where
  operationId : Option String
  summary : Option String
  tags : Option (List String)
  deprecated : Option Bool
  parameters : Option (List RawParam)
deriving DecidableEq

/-- A JSON schema object under `components.schemas`, restricted to the
keys the script reads: only the key list of `properties` is ever used. -/
structure RawSchema where
  propertyKeys : Option (List String)
  required : Option (List String)
deriving DecidableEq

/-- The JSON `components` section. -/
structure RawComponents where
  schemas : Option (List (String × RawSchema))
deriving DecidableEq

/-- A parsed OpenAPI document, restricted to the sections the script
reads.  `paths` maps a path to its path item, an object mapping keys
(method names, vendor extensions, `parameters`, ...) to operations. -/
structure RawSpec where
  paths : Option (List (String × List (String × RawOperation)))
  components : Option RawComponents
deriving DecidableEq

/-- The parameter record stored per endpoint (`extract_endpoints`). -/
structure Param where
  name : Option String
  in_ : Option String
  required : Bool
deriving DecidableEq

/-- The endpoint record stored per `(METHOD, path)` key. -/
structure Endpoint where
  operationId : String
  summary : String
  tags : List String
  deprecated : Bool
  parameters : List Param
deriving DecidableEq

/-- The schema record stored per schema name (`extract_schemas`). -/
structure SchemaInfo where
  properties : List String
  required : List String
deriving DecidableEq

/-- The set `HTTP_METHODS` of the script: get, post, put, patch, delete. -/
def HTTP_METHODS : List String := ["get", "post", "put", "patch", "delete"]

/-- The dict built for one operation inside `extract_endpoints`. -/
def endpointInfo (details : RawOperation) : Endpoint where
  operationId := details.operationId.getD ""
  summary := details.summary.getD ""
  tags := details.tags.getD []
  deprecated := details.deprecated.getD false
  parameters := (details.parameters.getD []).map fun p =>
    { name := p.name, in_ := p.in_, required := p.required.getD false }

/-- The function `extract_endpoints`: one `(method.upper(), path) -> info` entry per
path entry and per key under it that is in `HTTP_METHODS`. -/
def extract_endpoints (spec : RawSpec) : List ((String × String) × Endpoint) :=
  (spec.paths.getD []).flatMap fun pm =>
    pm.2.filterMap fun md =>
      if md.1 ∈ HTTP_METHODS then some ((strUpper md.1, pm.1), endpointInfo md.2)
      else none

/-- The function `extract_schemas`: schema name -> sorted property keys and sorted
required list. -/
def extract_schemas (spec : RawSpec) : List (String × SchemaInfo) :=
  ((spec.components.bind RawComponents.schemas).getD []).map fun ns =>
    (ns.1, { properties := sortStrings (ns.2.propertyKeys.getD [])
             required := sortStrings (ns.2.required.getD []) })

/-- One field-level change description appended to `diffs` for an
endpoint key by `diff_endpoints` (the content of the report string). -/
inductive EndpointChange where
  | summaryChange (old new : String)
  | deprecatedChange (old new : Bool)
  | tagsChange (old new : List String)
  | newParams (names : List (Option String))
  | removedParams (names : List (Option String))
deriving DecidableEq

/-- One field-level change description appended to `diffs` for a schema
name by `diff_schemas`. -/
inductive SchemaChange where
  | newProperties (names : List String)
  | removedProperties (names : List String)
  | requiredChanged (old new : List String)
deriving DecidableEq

/-- The added/removed/changed triple returned by the two diff
functions. -/
structure DiffResult (κ χ : Type) where
  added : List κ
  removed : List κ
  changed : List (κ × List χ)
deriving DecidableEq

/-- Python `{p["name"] for p in params}`: the set of parameter names. -/
def paramNameSet (params : List Param) : List (Option String) :=
  (params.map Param.name).dedup

/-- The `diffs` list accumulated for one key present on both sides of
`diff_endpoints`, with the parameter-name sort totalized: on inputs
where a name-difference set mixes `none` with a string name, the real
script raises `TypeError` inside `sorted` instead of producing this
list.  `endpointDiffsE` below models that error path; on all inputs
where the script completes, the two agree (`endpointDiffsE_eq_some`). -/
def endpointDiffs (old new : Endpoint) : List EndpointChange :=
  (if old.summary = new.summary then [] else [.summaryChange old.summary new.summary]) ++
  (if old.deprecated = new.deprecated then [] else [.deprecatedChange old.deprecated new.deprecated]) ++
  (if old.tags = new.tags then [] else [.tagsChange old.tags new.tags]) ++
  (let old_params := paramNameSet old.parameters
   let new_params := paramNameSet new.parameters
   let added_params := new_params.filter fun x => x ∉ old_params
   let removed_params := old_params.filter fun x => x ∉ new_params
   (if added_params = [] then [] else [.newParams (sortOptNames added_params)]) ++
   (if removed_params = [] then [] else [.removedParams (sortOptNames removed_params)]))

/-- The function `diff_endpoints`, with the parameter-name sort
totalized as in `endpointDiffs`.  `diff_endpointsE` below additionally
models the `TypeError` raised on a mixed name-difference set, in which
case the script produces no result at all; where the script completes,
the two agree componentwise. -/
def diff_endpoints (baseline current : List ((String × String) × Endpoint)) :
    DiffResult (String × String) EndpointChange :=
  let baseline_keys := dictKeys baseline
  let current_keys := dictKeys current
  { added := sortKeys (current_keys.filter fun k => k ∉ baseline_keys)
    removed := sortKeys (baseline_keys.filter fun k => k ∉ current_keys)
    changed := (sortKeys (baseline_keys.filter fun k => k ∈ current_keys)).filterMap fun k =>
      match dictLookup k baseline, dictLookup k current with
      | some old, some new =>
          let diffs := endpointDiffs old new
          if diffs = [] then none else some (k, diffs)
      | _, _ => none }

/-- The `diffs` list accumulated for one schema name present on both
sides of `diff_schemas`. -/
def schemaDiffs (old new : SchemaInfo) : List SchemaChange :=
  (let old_props := old.properties
   let new_props := new.properties
   let addedP := new_props.filter fun x => x ∉ old_props
   let removedP := old_props.filter fun x => x ∉ new_props
   (if addedP = [] then [] else [.newProperties (sortStrings addedP)]) ++
   (if removedP = [] then [] else [.removedProperties (sortStrings removedP)])) ++
  (if old.required = new.required then [] else [.requiredChanged old.required new.required])

/-- The function `diff_schemas`. -/
def diff_schemas (baseline current : List (String × SchemaInfo)) :
    DiffResult String SchemaChange :=
  let baseline_keys := dictKeys baseline
  let current_keys := dictKeys current
  { added := sortStrings (current_keys.filter fun k => k ∉ baseline_keys)
    removed := sortStrings (baseline_keys.filter fun k => k ∉ current_keys)
    changed := (sortStrings (baseline_keys.filter fun k => k ∈ current_keys)).filterMap fun k =>
      match dictLookup k baseline, dictLookup k current with
      | some old, some new =>
          let diffs := schemaDiffs old new
          if diffs = [] then none else some (k, diffs)
      | _, _ => none }

/-- The function `categorize_endpoint`. -/
def categorize_endpoint (method path : String) : String :=
  if strContains path "/v2-experimental/" then "experimental"
  else if strContains path "/orgs/" || strContains (strLower path) "enterprise" then "enterprise"
  else "standard"

/-- The one-line hint `main` writes to stderr on a bad argument count. -/
def usageMessage (prog : String) : String :=
  "Usage: " ++ prog ++ " <baseline.json> <current.json>"

/-- Observable outcome of a run of `main`: what was written to stderr,
whether the Markdown report was printed to stdout (its text is pure
presentation and is not modelled further), and the exit status. -/
structure MainResult where
  stderrLines : List String
  reportPrinted : Bool
  exitCode : Nat
deriving DecidableEq

/-- The `total` counted at the end of `main`. -/
def totalChanges (ep : DiffResult (String × String) EndpointChange)
    (sc : DiffResult String SchemaChange) : Nat :=
  ep.added.length + ep.removed.length + ep.changed.length +
    sc.added.length + sc.removed.length + sc.changed.length

/-- The function `main`, for a fixed argument vector `argv` (including the program
name, like `sys.argv`) and a loader `load` giving the successfully
parsed document behind each file name.  On the inputs where
`diff_endpoints` raises a `TypeError` (see `endpointDiffsE`) the real
process dies with a traceback: the interpreter also exits with status 1,
agreeing with `exitCode` here — such an input always has a non-empty
tracked difference — but no report is printed; statements about
`reportPrinted` and `stderrLines` are made only for the usage-error
branch, which runs before any diffing. -/
def runMain (argv : List String) (load : String → RawSpec) : MainResult :=
  match argv with
  | [_, b, c] =>
      let ep := diff_endpoints (extract_endpoints (load b)) (extract_endpoints (load c))
      let sc := diff_schemas (extract_schemas (load b)) (extract_schemas (load c))
      { stderrLines := []
        reportPrinted := true
        exitCode := if totalChanges ep sc > 0 then 1 else 0 }
  | _ =>
      { stderrLines := [usageMessage (argv.headD "")]
        reportPrinted := false
        exitCode := 1 }

example : strUpper "get" = "GET" := by decide
example : categorize_endpoint "GET" "/v2-experimental/orgs/x" = "experimental" := by decide
example : categorize_endpoint "GET" "/orgs/x" = "enterprise" := by decide
example : categorize_endpoint "GET" "/boards" = "standard" := by decide
example : sortStrings ["b", "a", "a"] = ["a", "a", "b"] := by decide

/-! ### Helper lemmas about the sorting and dictionary model -/

lemma mem_sortKeys (l : List (String × String)) (k : String × String) :
    k ∈ sortKeys l ↔ k ∈ l :=
  (List.perm_insertionSort _ l).mem_iff

lemma mem_sortStrings (l : List String) (s : String) :
    s ∈ sortStrings l ↔ s ∈ l :=
  (List.perm_insertionSort _ l).mem_iff

lemma dictLookup_isSome_iff {κ α : Type} [DecidableEq κ] (m : List (κ × α)) (k : κ) :
    (∃ v, dictLookup k m = some v) ↔ k ∈ m.map Prod.fst := by
  induction m with
  | nil => simp [dictLookup]
  | cons kv t ih =>
    by_cases h : kv.1 = k
    · simp [dictLookup, h]
    · simp only [dictLookup, if_neg h, List.map_cons, List.mem_cons, ih]
      constructor
      · exact Or.inr
      · rintro (rfl | hm)
        · exact absurd rfl h
        · exact hm

lemma mem_dictKeys {κ α : Type} [DecidableEq κ] (m : List (κ × α)) (k : κ) :
    k ∈ dictKeys m ↔ k ∈ m.map Prod.fst := by
  simp [dictKeys, List.mem_dedup]

lemma mem_dictKeys_of_lookup {κ α : Type} [DecidableEq κ] {m : List (κ × α)} {k : κ}
    {v : α} (h : dictLookup k m = some v) : k ∈ dictKeys m :=
  (mem_dictKeys m k).mpr ((dictLookup_isSome_iff m k).mp ⟨v, h⟩)

lemma ite_nil_cons_eq_nil {α : Type} (c : Prop) [Decidable c] (x : α) :
    ((if c then ([] : List α) else [x]) = []) ↔ c := by
  split_ifs with h <;> simp [h]

lemma toFinset_eq_of_perm {α : Type} [DecidableEq α] {l l' : List α} (h : l.Perm l') :
    l.toFinset = l'.toFinset := by
  ext a; simp [List.mem_toFinset, h.mem_iff]

/-! ### Characterizations of the per-key diff lists -/

lemma param_sets_eq_iff (o n : Endpoint) :
    ((paramNameSet n.parameters).filter (fun x => x ∉ paramNameSet o.parameters) = [] ∧
     (paramNameSet o.parameters).filter (fun x => x ∉ paramNameSet n.parameters) = []) ↔
    (o.parameters.map Param.name).toFinset = (n.parameters.map Param.name).toFinset := by
  simp only [List.filter_eq_nil_iff, decide_eq_true_eq, not_not, paramNameSet,
    List.mem_dedup, Finset.ext_iff, List.mem_toFinset]
  constructor
  · rintro ⟨h1, h2⟩ a
    exact ⟨fun ha => h2 a ha, fun ha => h1 a ha⟩
  · intro h
    exact ⟨fun a ha => (h a).mpr ha, fun a ha => (h a).mp ha⟩

lemma endpointDiffs_eq_nil_iff (o n : Endpoint) :
    endpointDiffs o n = [] ↔
      (o.summary = n.summary ∧ o.deprecated = n.deprecated ∧ o.tags = n.tags ∧
       (o.parameters.map Param.name).toFinset = (n.parameters.map Param.name).toFinset) := by
  rw [← param_sets_eq_iff]
  simp only [endpointDiffs, List.append_eq_nil, ite_nil_cons_eq_nil]
  tauto

lemma endpointDiffs_eq_nil_comm (o n : Endpoint) :
    endpointDiffs o n = [] ↔ endpointDiffs n o = [] := by
  rw [endpointDiffs_eq_nil_iff, endpointDiffs_eq_nil_iff]
  constructor <;> rintro ⟨h1, h2, h3, h4⟩ <;> exact ⟨h1.symm, h2.symm, h3.symm, h4.symm⟩

lemma schema_prop_sets_eq_iff (o n : SchemaInfo) :
    ((n.properties.filter (fun x => x ∉ o.properties) = []) ∧
     (o.properties.filter (fun x => x ∉ n.properties) = [])) ↔
    o.properties.toFinset = n.properties.toFinset := by
  simp only [List.filter_eq_nil_iff, decide_eq_true_eq, not_not, Finset.ext_iff,
    List.mem_toFinset]
  constructor
  · rintro ⟨h1, h2⟩ a
    exact ⟨fun ha => h2 a ha, fun ha => h1 a ha⟩
  · intro h
    exact ⟨fun a ha => (h a).mpr ha, fun a ha => (h a).mp ha⟩

lemma schemaDiffs_eq_nil_iff (o n : SchemaInfo) :
    schemaDiffs o n = [] ↔
      (o.properties.toFinset = n.properties.toFinset ∧ o.required = n.required) := by
  rw [← schema_prop_sets_eq_iff]
  simp only [schemaDiffs, List.append_eq_nil, ite_nil_cons_eq_nil]

lemma schemaDiffs_eq_nil_comm (o n : SchemaInfo) :
    schemaDiffs o n = [] ↔ schemaDiffs n o = [] := by
  rw [schemaDiffs_eq_nil_iff, schemaDiffs_eq_nil_iff]
  constructor <;> rintro ⟨h1, h2⟩ <;> exact ⟨h1.symm, h2.symm⟩

lemma endpoint_changed_mem_iff (baseline current : List ((String × String) × Endpoint))
    (k : String × String) (ds : List EndpointChange) :
    ((k, ds) ∈ (diff_endpoints baseline current).changed) ↔
      (k ∈ dictKeys baseline ∧ k ∈ dictKeys current ∧
       ∃ o n, dictLookup k baseline = some o ∧ dictLookup k current = some n ∧
         endpointDiffs o n ≠ [] ∧ ds = endpointDiffs o n) := by
  simp only [diff_endpoints, List.mem_filterMap, mem_sortKeys, List.mem_filter,
    decide_eq_true_eq]
  constructor
  · rintro ⟨k', ⟨hkb, hkc⟩, hf⟩
    rcases hb : dictLookup k' baseline with _ | o
    · simp [hb] at hf
    rcases hc : dictLookup k' current with _ | n
    · simp [hb, hc] at hf
    by_cases hnil : endpointDiffs o n = []
    · simp [hb, hc, hnil] at hf
    · simp only [hb, hc, if_neg hnil] at hf
      obtain ⟨rfl, rfl⟩ : k' = k ∧ endpointDiffs o n = ds := by
        simpa using hf
      exact ⟨hkb, hkc, o, n, hb, hc, hnil, rfl⟩
  · rintro ⟨hkb, hkc, o, n, hb, hc, hnil, rfl⟩
    exact ⟨k, ⟨hkb, hkc⟩, by simp [hb, hc, hnil]⟩

lemma endpoint_changed_key_iff (baseline current : List ((String × String) × Endpoint))
    (k : String × String) :
    (k ∈ (diff_endpoints baseline current).changed.map Prod.fst) ↔
      (k ∈ dictKeys baseline ∧ k ∈ dictKeys current ∧
       ∃ o n, dictLookup k baseline = some o ∧ dictLookup k current = some n ∧
         endpointDiffs o n ≠ []) := by
  rw [List.mem_map]
  constructor
  · rintro ⟨⟨k', ds⟩, hm, rfl⟩
    obtain ⟨hkb, hkc, o, n, hb, hc, hnil, -⟩ := (endpoint_changed_mem_iff _ _ _ _).mp hm
    exact ⟨hkb, hkc, o, n, hb, hc, hnil⟩
  · rintro ⟨hkb, hkc, o, n, hb, hc, hnil⟩
    exact ⟨(k, endpointDiffs o n),
      (endpoint_changed_mem_iff _ _ _ _).mpr ⟨hkb, hkc, o, n, hb, hc, hnil, rfl⟩, rfl⟩

lemma schema_changed_mem_iff (baseline current : List (String × SchemaInfo))
    (k : String) (ds : List SchemaChange) :
    ((k, ds) ∈ (diff_schemas baseline current).changed) ↔
      (k ∈ dictKeys baseline ∧ k ∈ dictKeys current ∧
       ∃ o n, dictLookup k baseline = some o ∧ dictLookup k current = some n ∧
         schemaDiffs o n ≠ [] ∧ ds = schemaDiffs o n) := by
  simp only [diff_schemas, List.mem_filterMap, mem_sortStrings, List.mem_filter,
    decide_eq_true_eq]
  constructor
  · rintro ⟨k', ⟨hkb, hkc⟩, hf⟩
    rcases hb : dictLookup k' baseline with _ | o
    · simp [hb] at hf
    rcases hc : dictLookup k' current with _ | n
    · simp [hb, hc] at hf
    by_cases hnil : schemaDiffs o n = []
    · simp [hb, hc, hnil] at hf
    · simp only [hb, hc, if_neg hnil] at hf
      obtain ⟨rfl, rfl⟩ : k' = k ∧ schemaDiffs o n = ds := by
        simpa using hf
      exact ⟨hkb, hkc, o, n, hb, hc, hnil, rfl⟩
  · rintro ⟨hkb, hkc, o, n, hb, hc, hnil, rfl⟩
    exact ⟨k, ⟨hkb, hkc⟩, by simp [hb, hc, hnil]⟩

lemma schema_changed_key_iff (baseline current : List (String × SchemaInfo)) (k : String) :
    (k ∈ (diff_schemas baseline current).changed.map Prod.fst) ↔
      (k ∈ dictKeys baseline ∧ k ∈ dictKeys current ∧
       ∃ o n, dictLookup k baseline = some o ∧ dictLookup k current = some n ∧
         schemaDiffs o n ≠ []) := by
  rw [List.mem_map]
  constructor
  · rintro ⟨⟨k', ds⟩, hm, rfl⟩
    obtain ⟨hkb, hkc, o, n, hb, hc, hnil, -⟩ := (schema_changed_mem_iff _ _ _ _).mp hm
    exact ⟨hkb, hkc, o, n, hb, hc, hnil⟩
  · rintro ⟨hkb, hkc, o, n, hb, hc, hnil⟩
    exact ⟨(k, schemaDiffs o n),
      (schema_changed_mem_iff _ _ _ _).mpr ⟨hkb, hkc, o, n, hb, hc, hnil, rfl⟩, rfl⟩

/-! ### The string order used by `sorted` -/

lemma charListLE_cons_iff (x y : Char) (xs ys : List Char) :
    charListLE (x :: xs) (y :: ys) = true ↔ (x < y ∨ (x = y ∧ charListLE xs ys = true)) := by
  show (if x < y then true else if y < x then false else charListLE xs ys) = true ↔ _
  split_ifs with h1 h2
  · simp [h1]
  · simp only [Bool.false_eq_true, false_iff]
    rintro (h | ⟨rfl, -⟩)
    · exact h1 h
    · exact lt_irrefl x h2
  · have hxy : x = y := le_antisymm (not_lt.mp h2) (not_lt.mp h1)
    simp [hxy]

lemma charListLE_total (a b : List Char) : charListLE a b = true ∨ charListLE b a = true := by
  induction a generalizing b with
  | nil => exact Or.inl rfl
  | cons x xs ih =>
    cases b with
    | nil => exact Or.inr rfl
    | cons y ys =>
      rcases lt_trichotomy x y with h | h | h
      · exact Or.inl ((charListLE_cons_iff _ _ _ _).mpr (Or.inl h))
      · subst h
        rcases ih ys with h' | h'
        · exact Or.inl ((charListLE_cons_iff _ _ _ _).mpr (Or.inr ⟨rfl, h'⟩))
        · exact Or.inr ((charListLE_cons_iff _ _ _ _).mpr (Or.inr ⟨rfl, h'⟩))
      · exact Or.inr ((charListLE_cons_iff _ _ _ _).mpr (Or.inl h))

lemma charListLE_trans (a b c : List Char) (h1 : charListLE a b = true)
    (h2 : charListLE b c = true) : charListLE a c = true := by
  induction a generalizing b c with
  | nil => rfl
  | cons x xs ih =>
    cases b with
    | nil => cases h1
    | cons y ys =>
      cases c with
      | nil => cases h2
      | cons z zs =>
        rcases (charListLE_cons_iff _ _ _ _).mp h1 with hxy | ⟨rfl, hr1⟩
        · rcases (charListLE_cons_iff _ _ _ _).mp h2 with hyz | ⟨rfl, -⟩
          · exact (charListLE_cons_iff _ _ _ _).mpr (Or.inl (lt_trans hxy hyz))
          · exact (charListLE_cons_iff _ _ _ _).mpr (Or.inl hxy)
        · rcases (charListLE_cons_iff _ _ _ _).mp h2 with hyz | ⟨rfl, hr2⟩
          · exact (charListLE_cons_iff _ _ _ _).mpr (Or.inl hyz)
          · exact (charListLE_cons_iff _ _ _ _).mpr (Or.inr ⟨rfl, ih ys zs hr1 hr2⟩)

lemma charListLE_antisymm (a b : List Char) (h1 : charListLE a b = true)
    (h2 : charListLE b a = true) : a = b := by
  induction a generalizing b with
  | nil => cases b with
    | nil => rfl
    | cons y ys => cases h2
  | cons x xs ih =>
    cases b with
    | nil => cases h1
    | cons y ys =>
      rcases (charListLE_cons_iff _ _ _ _).mp h1 with hxy | ⟨rfl, hr1⟩
      · rcases (charListLE_cons_iff _ _ _ _).mp h2 with hyx | ⟨rfl, -⟩
        · exact absurd hyx (asymm hxy)
        · exact absurd hxy (lt_irrefl _)
      · rcases (charListLE_cons_iff _ _ _ _).mp h2 with hyx | ⟨-, hr2⟩
        · exact absurd hyx (lt_irrefl _)
        · rw [ih ys hr1 hr2]

lemma string_data_inj {a b : String} (h : a.data = b.data) : a = b := by
  cases a; cases b; exact congrArg String.mk h

instance : IsTotal String (fun a b => pyStrLE a b = true) :=
  ⟨fun a b => charListLE_total a.data b.data⟩

instance : IsTrans String (fun a b => pyStrLE a b = true) :=
  ⟨fun a b c => charListLE_trans a.data b.data c.data⟩

instance : IsAntisymm String (fun a b => pyStrLE a b = true) :=
  ⟨fun a b h1 h2 => string_data_inj (charListLE_antisymm a.data b.data h1 h2)⟩

lemma sortStrings_eq_iff_perm (l1 l2 : List String) :
    sortStrings l1 = sortStrings l2 ↔ l1.Perm l2 := by
  constructor
  · intro h
    have p1 : (sortStrings l1).Perm l1 := List.perm_insertionSort _ l1
    have p2 : (sortStrings l1).Perm l2 := by
      rw [h]; exact List.perm_insertionSort _ l2
    exact p1.symm.trans p2
  · intro h
    exact List.eq_of_perm_of_sorted
      ((List.perm_insertionSort _ l1).trans (h.trans (List.perm_insertionSort _ l2).symm))
      (List.sorted_insertionSort _ l1) (List.sorted_insertionSort _ l2)

/-! ### Claim theorems -/

/-- C1 (counterexample): `"GET"` is one of the five HTTP methods under
case-insensitive comparison, yet a path item whose only key is `"GET"`
yields no endpoint record: method keys are matched case-sensitively. -/
theorem extract_endpoints_skips_uppercase_method :
    strLower "GET" ∈ HTTP_METHODS ∧
    extract_endpoints
      ⟨some [("/boards", [("GET", ⟨none, none, none, none, none⟩)])], none⟩ = [] := by
  decide

/-- C1 (amended): endpoint extraction is case-sensitive.  A record is
produced exactly for the path entries and keys under them that are
literally one of `get, post, put, patch, delete`; the output key carries
the method upper-cased and the path unchanged, and any other key
(upper-case or mixed-case methods, vendor extensions, `parameters`)
produces no record. -/
theorem extract_endpoints_mem_iff (spec : RawSpec) (e : (String × String) × Endpoint) :
    e ∈ extract_endpoints spec ↔
      ∃ pm ∈ spec.paths.getD [], ∃ md ∈ pm.2,
        md.1 ∈ HTTP_METHODS ∧ e = ((strUpper md.1, pm.1), endpointInfo md.2) := by
  simp only [extract_endpoints, List.mem_flatMap, List.mem_filterMap]
  constructor
  · rintro ⟨pm, hpm, md, hmd, hf⟩
    rw [Option.ite_none_right_eq_some] at hf
    obtain ⟨hm, he⟩ := hf
    exact ⟨pm, hpm, md, hmd, hm, (Option.some.inj he).symm⟩
  · rintro ⟨pm, hpm, md, hmd, hm, rfl⟩
    exact ⟨pm, hpm, md, hmd, by rw [if_pos hm]⟩

lemma exit_code_iff_aux (ep : DiffResult (String × String) EndpointChange)
    (sc : DiffResult String SchemaChange) :
    (((if totalChanges ep sc > 0 then 1 else 0 : Nat)) = 0 ↔
      (ep.added = [] ∧ ep.removed = [] ∧ ep.changed = [] ∧
       sc.added = [] ∧ sc.removed = [] ∧ sc.changed = [])) ∧
    (((if totalChanges ep sc > 0 then 1 else 0 : Nat)) = 1 ↔
      ¬ (ep.added = [] ∧ ep.removed = [] ∧ ep.changed = [] ∧
         sc.added = [] ∧ sc.removed = [] ∧ sc.changed = [])) := by
  have hz : totalChanges ep sc = 0 ↔
      (ep.added = [] ∧ ep.removed = [] ∧ ep.changed = [] ∧
       sc.added = [] ∧ sc.removed = [] ∧ sc.changed = []) := by
    simp only [totalChanges, Nat.add_eq_zero, List.length_eq_zero]
    tauto
  by_cases h : totalChanges ep sc > 0
  · rw [if_pos h]
    refine ⟨⟨fun h0 => absurd h0 one_ne_zero, fun hsix => ?_⟩,
            ⟨fun _ hsix => ?_, fun _ => rfl⟩⟩
    · rw [hz.mpr hsix] at h
      exact absurd h (lt_irrefl 0)
    · rw [hz.mpr hsix] at h
      exact absurd h (lt_irrefl 0)
  · rw [if_neg h]
    have h0 : totalChanges ep sc = 0 := Nat.eq_zero_of_not_pos h
    exact ⟨⟨fun _ => hz.mp h0, fun _ => rfl⟩,
           ⟨fun h01 => absurd h01 zero_ne_one, fun hn => absurd (hz.mp h0) hn⟩⟩

/-- C2: for successfully loaded documents, the exit status is `0` iff
all six diff collections are empty, and `1` iff at least one of them is
non-empty. -/
theorem exit_status_zero_iff_no_changes (prog f1 f2 : String) (load : String → RawSpec) :
    ((runMain [prog, f1, f2] load).exitCode = 0 ↔
      ((diff_endpoints (extract_endpoints (load f1)) (extract_endpoints (load f2))).added = [] ∧
       (diff_endpoints (extract_endpoints (load f1)) (extract_endpoints (load f2))).removed = [] ∧
       (diff_endpoints (extract_endpoints (load f1)) (extract_endpoints (load f2))).changed = [] ∧
       (diff_schemas (extract_schemas (load f1)) (extract_schemas (load f2))).added = [] ∧
       (diff_schemas (extract_schemas (load f1)) (extract_schemas (load f2))).removed = [] ∧
       (diff_schemas (extract_schemas (load f1)) (extract_schemas (load f2))).changed = [])) ∧
    ((runMain [prog, f1, f2] load).exitCode = 1 ↔
      ¬ ((diff_endpoints (extract_endpoints (load f1)) (extract_endpoints (load f2))).added = [] ∧
         (diff_endpoints (extract_endpoints (load f1)) (extract_endpoints (load f2))).removed = [] ∧
         (diff_endpoints (extract_endpoints (load f1)) (extract_endpoints (load f2))).changed = [] ∧
         (diff_schemas (extract_schemas (load f1)) (extract_schemas (load f2))).added = [] ∧
         (diff_schemas (extract_schemas (load f1)) (extract_schemas (load f2))).removed = [] ∧
         (diff_schemas (extract_schemas (load f1)) (extract_schemas (load f2))).changed = [])) :=
  exit_code_iff_aux _ _

/-- C4 (counterexample): on a malformed invocation (one positional
argument instead of two) the process exits with status `1`, which is not
distinct from the "changes found" status `1`. -/
theorem usage_exit_code_equals_change_code :
    (runMain ["diff-spec.py", "baseline.json"] (fun _ => ⟨none, none⟩)).exitCode = 1 ∧
    ¬ ((runMain ["diff-spec.py", "baseline.json"] (fun _ => ⟨none, none⟩)).exitCode ≠ 0 ∧
       (runMain ["diff-spec.py", "baseline.json"] (fun _ => ⟨none, none⟩)).exitCode ≠ 1) :=
  ⟨rfl, fun h => h.2 rfl⟩

/-- C4 (amended): on any argument count other than two positional
arguments the program prints the one-line usage hint to stderr, produces
no report, and exits with status `1` — non-zero, but the same code as
"changes found". -/
theorem usage_error_exit_one (argv : List String) (load : String → RawSpec)
    (h : argv.length ≠ 3) :
    runMain argv load =
      { stderrLines := [usageMessage (argv.headD "")], reportPrinted := false,
        exitCode := 1 } := by
  rcases argv with _ | ⟨a, _ | ⟨b, _ | ⟨c, t⟩⟩⟩
  · rfl
  · rfl
  · rfl
  · cases t with
    | nil => exact absurd rfl h
    | cons d t' => rfl

theorem usage_error_exit_one_witness :
    runMain ["diff-spec.py"] (fun _ => ⟨none, none⟩) =
      { stderrLines := [usageMessage "diff-spec.py"], reportPrinted := false,
        exitCode := 1 } :=
  usage_error_exit_one ["diff-spec.py"] (fun _ => ⟨none, none⟩) (by decide)

/-- C5: a document without `paths` yields no endpoints, and a document
without `components`, or whose `components` has no `schemas`, yields no
schemas; extraction is total and signals no error. -/
theorem missing_sections_empty (spec : RawSpec) :
    (spec.paths = none → extract_endpoints spec = []) ∧
    (spec.components = none → extract_schemas spec = []) ∧
    (∀ comp : RawComponents, spec.components = some comp → comp.schemas = none →
      extract_schemas spec = []) := by
  refine ⟨fun h => ?_, fun h => ?_, fun comp h1 h2 => ?_⟩
  · simp [extract_endpoints, h]
  · simp [extract_schemas, h]
  · simp [extract_schemas, h1, h2]

theorem missing_sections_empty_witness :
    extract_endpoints ⟨none, none⟩ = [] ∧ extract_schemas ⟨none, none⟩ = [] ∧
    extract_schemas ⟨none, some ⟨none⟩⟩ = [] :=
  ⟨(missing_sections_empty ⟨none, none⟩).1 rfl,
   (missing_sections_empty ⟨none, none⟩).2.1 rfl,
   (missing_sections_empty ⟨none, some ⟨none⟩⟩).2.2 ⟨none⟩ rfl rfl⟩

/-- C6: the categorizer returns one of exactly three labels, checked in
priority order: `experimental` when the path contains
`/v2-experimental/`, else `enterprise` when it contains `/orgs/` or
(case-insensitively) `enterprise`, else `standard`; the three labels are
pairwise distinct, so a path matching both of the first two rules is
classified `experimental`. -/
theorem categorize_endpoint_priority (method path : String) :
    (categorize_endpoint method path = "experimental" ∨
     categorize_endpoint method path = "enterprise" ∨
     categorize_endpoint method path = "standard") ∧
    (strContains path "/v2-experimental/" = true →
      categorize_endpoint method path = "experimental") ∧
    (strContains path "/v2-experimental/" = false →
      (strContains path "/orgs/" || strContains (strLower path) "enterprise") = true →
      categorize_endpoint method path = "enterprise") ∧
    (strContains path "/v2-experimental/" = false →
      (strContains path "/orgs/" || strContains (strLower path) "enterprise") = false →
      categorize_endpoint method path = "standard") ∧
    (("experimental" : String) ≠ "enterprise" ∧ ("experimental" : String) ≠ "standard" ∧
     ("enterprise" : String) ≠ "standard") := by
  unfold categorize_endpoint
  refine ⟨?_, fun h1 => ?_, fun h1 h2 => ?_, fun h1 h2 => ?_, by decide⟩
  · split_ifs <;> simp
  · rw [if_pos h1]
  · rw [if_neg (by simp [h1]), if_pos h2]
  · rw [if_neg (by simp [h1]), if_neg (by simp [h2])]

theorem categorize_endpoint_priority_witness :
    categorize_endpoint "GET" "/v2-experimental/orgs/123" = "experimental" ∧
    strContains "/v2-experimental/orgs/123" "/orgs/" = true :=
  ⟨(categorize_endpoint_priority "GET" "/v2-experimental/orgs/123").2.1 (by decide),
   by decide⟩

lemma mem_ite_nil_iff {α : Type} (c : Prop) [Decidable c] (x y : α) :
    (y ∈ (if c then ([] : List α) else [x])) ↔ (¬ c ∧ y = x) := by
  split_ifs with h <;> simp [h]

/-- Python `sorted` on a parameter-name difference set, with the error
path of the script: comparing `None` with a `str` raises `TypeError`,
so sorting a collection holding `none` together with at least one
string name fails (`none`); on the homogeneous or singleton collections
where `sorted` succeeds it returns the sorted list. -/
def pySortedOptNames (l : List (Option String)) : Option (List (Option String)) :=
  if none ∈ l ∧ l.any Option.isSome = true then none
  else some (sortOptNames l)

/-- The `diffs` computation of `diff_endpoints` for one common key,
including the error path: `none` models the `TypeError` that `sorted`
raises on a name-difference set mixing `none` with a string name, which
kills the run before any diff is returned. -/
def endpointDiffsE (old new : Endpoint) : Option (List EndpointChange) :=
  let old_params := paramNameSet old.parameters
  let new_params := paramNameSet new.parameters
  let added_params := new_params.filter fun x => x ∉ old_params
  let removed_params := old_params.filter fun x => x ∉ new_params
  (if added_params = [] then some [] else
    (pySortedOptNames added_params).map fun s => [EndpointChange.newParams s]).bind
      fun seg4 =>
    (if removed_params = [] then some [] else
      (pySortedOptNames removed_params).map fun s => [EndpointChange.removedParams s]).map
        fun seg5 =>
      (if old.summary = new.summary then [] else
        [EndpointChange.summaryChange old.summary new.summary]) ++
      (if old.deprecated = new.deprecated then [] else
        [EndpointChange.deprecatedChange old.deprecated new.deprecated]) ++
      (if old.tags = new.tags then [] else
        [EndpointChange.tagsChange old.tags new.tags]) ++ (seg4 ++ seg5)

/-- The `changed` loop of `diff_endpoints` over the sorted common keys,
with the error path: `none` as soon as one common key raises. -/
def changedEntriesE (baseline current : List ((String × String) × Endpoint)) :
    List (String × String) → Option (List ((String × String) × List EndpointChange))
  | [] => some []
  | k :: ks =>
    match dictLookup k baseline, dictLookup k current with
    | some old, some new =>
      (endpointDiffsE old new).bind fun ds =>
        (changedEntriesE baseline current ks).map fun rest =>
          if ds = [] then rest else (k, ds) :: rest
    | _, _ => changedEntriesE baseline current ks

/-- The function `diff_endpoints` with the error path: `none` when the
run dies in a `sorted` call on a mixed name-difference set, in which
case no added/removed/changed triple is ever produced. -/
def diff_endpointsE (baseline current : List ((String × String) × Endpoint)) :
    Option (DiffResult (String × String) EndpointChange) :=
  let baseline_keys := dictKeys baseline
  let current_keys := dictKeys current
  (changedEntriesE baseline current
      (sortKeys (baseline_keys.filter fun k => k ∈ current_keys))).map fun changed =>
    { added := sortKeys (current_keys.filter fun k => k ∉ baseline_keys)
      removed := sortKeys (baseline_keys.filter fun k => k ∉ current_keys)
      changed := changed }

lemma pySortedOptNames_eq_some (l s : List (Option String)) :
    pySortedOptNames l = some s ↔
      (¬ (none ∈ l ∧ l.any Option.isSome = true)) ∧ s = sortOptNames l := by
  unfold pySortedOptNames
  split_ifs with h
  · constructor
    · intro hcontra
      exact absurd hcontra (by simp)
    · rintro ⟨hn, -⟩
      exact absurd h hn
  · constructor
    · intro hs
      exact ⟨h, (Option.some.inj hs).symm⟩
    · rintro ⟨-, rfl⟩
      rfl

lemma paramSegE_eq_some (g : List (Option String) → EndpointChange)
    (A : List (Option String)) (seg : List EndpointChange)
    (h : (if A = [] then some [] else
        (pySortedOptNames A).map fun s => [g s]) = some seg) :
    seg = (if A = [] then [] else [g (sortOptNames A)]) := by
  by_cases hA : A = []
  · rw [if_pos hA] at h
    rw [if_pos hA]
    exact (Option.some.inj h).symm
  · rw [if_neg hA] at h
    rw [if_neg hA]
    obtain ⟨s, hs, rfl⟩ := Option.map_eq_some'.mp h
    obtain ⟨-, rfl⟩ := (pySortedOptNames_eq_some A s).mp hs
    rfl

/-- Where the script completes, the error-aware diffs agree with the
totalized `endpointDiffs`. -/
lemma endpointDiffsE_eq_some (o n : Endpoint) (ds : List EndpointChange)
    (h : endpointDiffsE o n = some ds) : ds = endpointDiffs o n := by
  simp only [endpointDiffsE] at h
  obtain ⟨seg4, h4, h5m⟩ := Option.bind_eq_some.mp h
  obtain ⟨seg5, h5, rfl⟩ := Option.map_eq_some'.mp h5m
  rw [paramSegE_eq_some _ _ _ h4, paramSegE_eq_some _ _ _ h5]
  rfl

set_option maxRecDepth 4096 in
lemma changedEntriesE_some_of_mem (baseline current : List ((String × String) × Endpoint))
    (k : String × String) (o n : Endpoint)
    (hb : dictLookup k baseline = some o) (hc : dictLookup k current = some n) :
    ∀ (keys : List (String × String)) (lst : List ((String × String) × List EndpointChange)),
      changedEntriesE baseline current keys = some lst → k ∈ keys →
      ∃ ds, endpointDiffsE o n = some ds := by
  intro keys
  induction keys with
  | nil =>
    intro lst _ hk
    cases hk
  | cons k1 ks ih =>
    intro lst h hk
    rcases List.mem_cons.mp hk with rfl | hk1
    · simp only [changedEntriesE, hb, hc] at h
      obtain ⟨ds, hds, -⟩ := Option.bind_eq_some.mp h
      exact ⟨ds, hds⟩
    · rcases hb1 : dictLookup k1 baseline with _ | o1
      · simp only [changedEntriesE, hb1] at h
        exact ih lst h hk1
      · rcases hc1 : dictLookup k1 current with _ | n1
        · simp only [changedEntriesE, hb1, hc1] at h
          exact ih lst h hk1
        · simp only [changedEntriesE, hb1, hc1] at h
          obtain ⟨ds1, -, hrest⟩ := Option.bind_eq_some.mp h
          obtain ⟨rest, hrest1, -⟩ := Option.map_eq_some'.mp hrest
          exact ih rest hrest1 hk1

set_option maxRecDepth 4096 in
lemma changedEntriesE_mem_iff (baseline current : List ((String × String) × Endpoint))
    (k : String × String) (ds : List EndpointChange) :
    ∀ (keys : List (String × String)) (lst : List ((String × String) × List EndpointChange)),
      changedEntriesE baseline current keys = some lst →
      ((k, ds) ∈ lst ↔ (k ∈ keys ∧ ∃ o n, dictLookup k baseline = some o ∧
        dictLookup k current = some n ∧ endpointDiffsE o n = some ds ∧ ds ≠ [])) := by
  intro keys
  induction keys with
  | nil =>
    intro lst h
    simp only [changedEntriesE] at h
    obtain rfl := Option.some.inj h
    simp
  | cons k1 ks ih =>
    intro lst h
    rcases hb1 : dictLookup k1 baseline with _ | o1
    · simp only [changedEntriesE, hb1] at h
      rw [ih lst h]
      constructor
      · rintro ⟨hk, rest⟩
        exact ⟨List.mem_cons_of_mem _ hk, rest⟩
      · rintro ⟨hk, o, n, hbk, hck, hde, hne⟩
        rcases List.mem_cons.mp hk with rfl | hk1
        · rw [hb1] at hbk
          cases hbk
        · exact ⟨hk1, o, n, hbk, hck, hde, hne⟩
    · rcases hc1 : dictLookup k1 current with _ | n1
      · simp only [changedEntriesE, hb1, hc1] at h
        rw [ih lst h]
        constructor
        · rintro ⟨hk, rest⟩
          exact ⟨List.mem_cons_of_mem _ hk, rest⟩
        · rintro ⟨hk, o, n, hbk, hck, hde, hne⟩
          rcases List.mem_cons.mp hk with rfl | hk1
          · rw [hc1] at hck
            cases hck
          · exact ⟨hk1, o, n, hbk, hck, hde, hne⟩
      · simp only [changedEntriesE, hb1, hc1] at h
        obtain ⟨ds1, hds1, hrest⟩ := Option.bind_eq_some.mp h
        obtain ⟨rest, hrest2, rfl⟩ := Option.map_eq_some'.mp hrest
        by_cases hnil : ds1 = []
        · rw [if_pos hnil, ih rest hrest2]
          constructor
          · rintro ⟨hk, rest1⟩
            exact ⟨List.mem_cons_of_mem _ hk, rest1⟩
          · rintro ⟨hk, o, n, hbk, hck, hde, hne⟩
            rcases List.mem_cons.mp hk with rfl | hk1
            · rw [hb1] at hbk
              rw [hc1] at hck
              obtain rfl : o1 = o := Option.some.inj hbk
              obtain rfl : n1 = n := Option.some.inj hck
              rw [hde] at hds1
              exact absurd ((Option.some.inj hds1).trans hnil) hne
            · exact ⟨hk1, o, n, hbk, hck, hde, hne⟩
        · rw [if_neg hnil]
          rw [List.mem_cons, ih rest hrest2]
          constructor
          · rintro (heq | ⟨hk, rest1⟩)
            · obtain ⟨rfl, rfl⟩ := Prod.mk.injEq .. ▸ heq
              exact ⟨List.mem_cons_self _ _, o1, n1, hb1, hc1, hds1, hnil⟩
            · exact ⟨List.mem_cons_of_mem _ hk, rest1⟩
          · rintro ⟨hk, o, n, hbk, hck, hde, hne⟩
            rcases List.mem_cons.mp hk with rfl | hk1
            · rw [hb1] at hbk
              rw [hc1] at hck
              obtain rfl : o1 = o := Option.some.inj hbk
              obtain rfl : n1 = n := Option.some.inj hck
              rw [hde] at hds1
              exact Or.inl (by rw [Option.some.inj hds1])
            · exact Or.inr ⟨hk1, o, n, hbk, hck, hde, hne⟩

def c3xOld : Endpoint := ⟨"", "s", [], false, [⟨some "a", none, false⟩]⟩

def c3xNew : Endpoint := ⟨"", "s", [], false, [⟨none, none, false⟩, ⟨some "b", none, false⟩]⟩

/-- C3 (counterexample): for the key present in both mappings below the
parameter-name sets differ — the fourth tracked check fires — yet no
changed collection exists at all: the name-difference set mixes an
unnamed (`none`) parameter with a named one, so `sorted` raises
`TypeError` inside `diff_endpoints` and the run dies (`none`). -/
theorem diff_endpoints_crashes_on_mixed_names :
    ((c3xOld.parameters.map Param.name).toFinset ≠
      (c3xNew.parameters.map Param.name).toFinset) ∧
    diff_endpointsE [(("GET", "/a"), c3xOld)] [(("GET", "/a"), c3xNew)] = none := by
  decide

/-- C3 (amended): whenever the differ completes — no `TypeError` from
sorting a mixed name-difference set, so the changed collection exists —
a key present in both endpoint mappings lands in `changed` iff summary,
deprecated flag, tags (as ordered sequences) or the set of parameter
names differ; operationId and parameter `in`/`required` fields play no
role.  On a common key whose name-difference set mixes an unnamed
parameter with a named one the differ instead raises and produces no
changed collection at all. -/
theorem diff_endpoints_changed_iff_checked
    (baseline current : List ((String × String) × Endpoint))
    (r : DiffResult (String × String) EndpointChange)
    (k : String × String) (o n : Endpoint)
    (hr : diff_endpointsE baseline current = some r)
    (hb : dictLookup k baseline = some o) (hc : dictLookup k current = some n) :
    (∃ ds, (k, ds) ∈ r.changed) ↔
      (o.summary ≠ n.summary ∨ o.deprecated ≠ n.deprecated ∨ o.tags ≠ n.tags ∨
       (o.parameters.map Param.name).toFinset ≠ (n.parameters.map Param.name).toFinset) := by
  simp only [diff_endpointsE] at hr
  obtain ⟨lst, hlst, rfl⟩ := Option.map_eq_some'.mp hr
  have hkmem : k ∈ sortKeys ((dictKeys baseline).filter fun x => x ∈ dictKeys current) := by
    rw [mem_sortKeys, List.mem_filter]
    refine ⟨mem_dictKeys_of_lookup hb, ?_⟩
    simp only [decide_eq_true_eq]
    exact mem_dictKeys_of_lookup hc
  show (∃ ds, (k, ds) ∈ lst) ↔ _
  constructor
  · rintro ⟨ds, hm⟩
    rw [changedEntriesE_mem_iff baseline current k ds _ lst hlst] at hm
    obtain ⟨-, o1, n1, hb1, hc1, hde, hne⟩ := hm
    rw [hb] at hb1
    rw [hc] at hc1
    obtain rfl : o = o1 := Option.some.inj hb1
    obtain rfl : n = n1 := Option.some.inj hc1
    rw [endpointDiffsE_eq_some o n ds hde, Ne, endpointDiffs_eq_nil_iff] at hne
    tauto
  · intro hdisj
    obtain ⟨ds, hde⟩ := changedEntriesE_some_of_mem baseline current k o n hb hc _ lst hlst hkmem
    have hne : ds ≠ [] := by
      rw [endpointDiffsE_eq_some o n ds hde, Ne, endpointDiffs_eq_nil_iff]
      tauto
    exact ⟨ds, (changedEntriesE_mem_iff baseline current k ds _ lst hlst).mpr
      ⟨hkmem, o, n, hb, hc, hde, hne⟩⟩

def c3old : Endpoint := ⟨"op1", "s", [], false, []⟩

def c3new : Endpoint := ⟨"op2", "s", [], false, []⟩

def c3baseline : List ((String × String) × Endpoint) := [(("GET", "/a"), c3old)]

def c3current : List ((String × String) × Endpoint) := [(("GET", "/a"), c3new)]

theorem diff_endpoints_changed_iff_checked_witness :
    (∃ ds, ((("GET", "/a") : String × String), ds) ∈
        (DiffResult.mk [] [] [] : DiffResult (String × String) EndpointChange).changed) ↔
      (c3old.summary ≠ c3new.summary ∨ c3old.deprecated ≠ c3new.deprecated ∨
       c3old.tags ≠ c3new.tags ∨
       (c3old.parameters.map Param.name).toFinset ≠
         (c3new.parameters.map Param.name).toFinset) :=
  diff_endpoints_changed_iff_checked c3baseline c3current ⟨[], [], []⟩ ("GET", "/a")
    c3old c3new (by decide) (by decide) (by decide)

/-- C7: diffing A against B and B against A swaps `added` and `removed`
and yields the same set of changed keys, for endpoints and schemas. -/
theorem diff_symmetry (A B : List ((String × String) × Endpoint))
    (S T : List (String × SchemaInfo)) :
    (diff_endpoints A B).added = (diff_endpoints B A).removed ∧
    (diff_endpoints A B).removed = (diff_endpoints B A).added ∧
    ((diff_endpoints A B).changed.map Prod.fst).toFinset =
      ((diff_endpoints B A).changed.map Prod.fst).toFinset ∧
    (diff_schemas S T).added = (diff_schemas T S).removed ∧
    (diff_schemas S T).removed = (diff_schemas T S).added ∧
    ((diff_schemas S T).changed.map Prod.fst).toFinset =
      ((diff_schemas T S).changed.map Prod.fst).toFinset := by
  refine ⟨rfl, rfl, ?_, rfl, rfl, ?_⟩
  · ext k
    simp only [List.mem_toFinset, endpoint_changed_key_iff]
    constructor
    · rintro ⟨hkb, hkc, o, n, hbo, hcn, hnil⟩
      exact ⟨hkc, hkb, n, o, hcn, hbo,
        fun hh => hnil ((endpointDiffs_eq_nil_comm o n).mpr hh)⟩
    · rintro ⟨hkb, hkc, o, n, hbo, hcn, hnil⟩
      exact ⟨hkc, hkb, n, o, hcn, hbo,
        fun hh => hnil ((endpointDiffs_eq_nil_comm o n).mpr hh)⟩
  · ext k
    simp only [List.mem_toFinset, schema_changed_key_iff]
    constructor
    · rintro ⟨hkb, hkc, o, n, hbo, hcn, hnil⟩
      exact ⟨hkc, hkb, n, o, hcn, hbo,
        fun hh => hnil ((schemaDiffs_eq_nil_comm o n).mpr hh)⟩
    · rintro ⟨hkb, hkc, o, n, hbo, hcn, hnil⟩
      exact ⟨hkc, hkb, n, o, hcn, hbo,
        fun hh => hnil ((schemaDiffs_eq_nil_comm o n).mpr hh)⟩

/-- C8 (counterexample): with a duplicated entry in one `required` list
the stored sorted sequences differ — so a required change is reported —
while the two required sets are equal: sorted-sequence inequality is not
equivalent to set inequality. -/
theorem required_sequence_not_set :
    (diff_schemas
        (extract_schemas ⟨none, some ⟨some [("S", ⟨none, some ["a", "a"]⟩)]⟩⟩)
        (extract_schemas ⟨none, some ⟨some [("S", ⟨none, some ["a"]⟩)]⟩⟩)).changed =
      [("S", [SchemaChange.requiredChanged ["a", "a"] ["a"]])] ∧
    (["a", "a"] : List String).toFinset = (["a"] : List String).toFinset := by
  decide

/-- C8 (amended): the schema differ reports a required change iff the
stored (sorted) sequences are unequal; since extraction sorts, that is
equivalent to the two raw required lists being unequal as multisets, and
equivalent to set inequality when both lists are duplicate-free. -/
theorem required_change_characterization (a b : SchemaInfo) (r1 r2 : List String) :
    ((∃ x y, SchemaChange.requiredChanged x y ∈ schemaDiffs a b) ↔
      a.required ≠ b.required) ∧
    (sortStrings r1 = sortStrings r2 ↔ (r1 : Multiset String) = (r2 : Multiset String)) ∧
    (r1.Nodup → r2.Nodup →
      (sortStrings r1 = sortStrings r2 ↔ r1.toFinset = r2.toFinset)) := by
  refine ⟨?_, ?_, fun h1 h2 => ?_⟩
  · simp only [schemaDiffs, List.mem_append, mem_ite_nil_iff]
    constructor
    · rintro ⟨x, y, hm⟩
      rcases hm with (⟨-, h⟩ | ⟨-, h⟩) | ⟨hne, -⟩
      · simp at h
      · simp at h
      · exact hne
    · intro hne
      exact ⟨a.required, b.required, Or.inr ⟨hne, rfl⟩⟩
  · rw [sortStrings_eq_iff_perm]
    exact Multiset.coe_eq_coe.symm
  · rw [sortStrings_eq_iff_perm]
    exact ⟨fun h => toFinset_eq_of_perm h,
           fun h => List.perm_of_nodup_nodup_toFinset_eq h1 h2 h⟩

theorem required_change_characterization_witness :
    sortStrings ["a"] = sortStrings ["b"] ↔
      (["a"] : List String).toFinset = (["b"] : List String).toFinset :=
  (required_change_characterization ⟨[], []⟩ ⟨[], []⟩ ["a"] ["b"]).2.2
    (by decide) (by decide)

/-- Whether a change description is a parameter (name-set) change. -/
def isParamChange : EndpointChange → Bool
  | .newParams _ => true
  | .removedParams _ => true
  | _ => false

/-- C9: a parameter without a `name` field is stored with a null name,
and since the differ compares name sets, all unnamed parameters collapse
to the single null element: when the named parameters agree and both
sides have at least one unnamed parameter (in any counts), no parameter
change is ever reported. -/
theorem unnamed_params_collapse (p : RawParam) (o n : Endpoint)
    (hp : p.name = none)
    (hnames : ∀ s : String, some s ∈ o.parameters.map Param.name ↔
      some s ∈ n.parameters.map Param.name)
    (ho : ∃ q ∈ o.parameters, q.name = none)
    (hn : ∃ q ∈ n.parameters, q.name = none) :
    ((endpointInfo ⟨none, none, none, none, some [p]⟩).parameters.map Param.name = [none]) ∧
    (∀ c ∈ endpointDiffs o n, isParamChange c = false) := by
  constructor
  · simp [endpointInfo, hp]
  · have hset : ∀ x, x ∈ paramNameSet n.parameters ↔ x ∈ paramNameSet o.parameters := by
      intro x
      cases x with
      | none =>
        simp only [paramNameSet, List.mem_dedup]
        constructor
        · intro _
          obtain ⟨q, hq, hqn⟩ := ho
          exact List.mem_map.mpr ⟨q, hq, by rw [hqn]⟩
        · intro _
          obtain ⟨q, hq, hqn⟩ := hn
          exact List.mem_map.mpr ⟨q, hq, by rw [hqn]⟩
      | some s =>
        simp only [paramNameSet, List.mem_dedup]
        exact (hnames s).symm
    have hadded : (paramNameSet n.parameters).filter
        (fun x => x ∉ paramNameSet o.parameters) = [] := by
      rw [List.filter_eq_nil_iff]
      intro a ha
      simp [(hset a).mp ha]
    have hremoved : (paramNameSet o.parameters).filter
        (fun x => x ∉ paramNameSet n.parameters) = [] := by
      rw [List.filter_eq_nil_iff]
      intro a ha
      simp [(hset a).mpr ha]
    intro c hc
    simp only [endpointDiffs, hadded, hremoved, List.mem_append, mem_ite_nil_iff,
      not_true, false_and, or_false, false_or] at hc
    rcases hc with (⟨-, rfl⟩ | ⟨-, rfl⟩) | ⟨-, rfl⟩ <;> rfl

def c9p : RawParam := ⟨none, none, none⟩

def c9o : Endpoint := ⟨"", "s1", [], false, [⟨none, none, false⟩]⟩

def c9n : Endpoint := ⟨"", "s2", [], false, [⟨none, none, false⟩, ⟨none, some "q", true⟩]⟩

theorem unnamed_params_collapse_witness :
    ((endpointInfo ⟨none, none, none, none, some [c9p]⟩).parameters.map Param.name
      = [none]) ∧
    (∀ c ∈ endpointDiffs c9o c9n, isParamChange c = false) :=
  unnamed_params_collapse c9p c9o c9n rfl
    (fun s => by simp [c9o, c9n]) (by decide) (by decide)

/-- C10: every entry of `changed` (endpoints or schemas) carries a
non-empty list of change descriptions. -/
theorem changed_entries_nonempty (A B : List ((String × String) × Endpoint))
    (S T : List (String × SchemaInfo)) :
    (∀ k ds, (k, ds) ∈ (diff_endpoints A B).changed → ds ≠ []) ∧
    (∀ nm ds, (nm, ds) ∈ (diff_schemas S T).changed → ds ≠ []) := by
  constructor
  · intro k ds hm
    obtain ⟨-, -, o, n, -, -, hnil, rfl⟩ := (endpoint_changed_mem_iff _ _ _ _).mp hm
    exact hnil
  · intro nm ds hm
    obtain ⟨-, -, o, n, -, -, hnil, rfl⟩ := (schema_changed_mem_iff _ _ _ _).mp hm
    exact hnil

def c10A : List ((String × String) × Endpoint) := [(("GET", "/a"), ⟨"", "x", [], false, []⟩)]

def c10B : List ((String × String) × Endpoint) := [(("GET", "/a"), ⟨"", "y", [], false, []⟩)]

def c10S : List (String × SchemaInfo) := [("S", ⟨[], []⟩)]

def c10T : List (String × SchemaInfo) := [("S", ⟨[], ["r"]⟩)]

theorem changed_entries_nonempty_witness :
    ((("GET", "/a") : String × String), [EndpointChange.summaryChange "x" "y"]) ∈
      (diff_endpoints c10A c10B).changed ∧
    [EndpointChange.summaryChange "x" "y"] ≠ ([] : List EndpointChange) ∧
    ("S", [SchemaChange.requiredChanged [] ["r"]]) ∈ (diff_schemas c10S c10T).changed ∧
    [SchemaChange.requiredChanged [] ["r"]] ≠ ([] : List SchemaChange) :=
  ⟨by decide,
   (changed_entries_nonempty c10A c10B c10S c10T).1 ("GET", "/a")
     [EndpointChange.summaryChange "x" "y"] (by decide),
   by decide,
   (changed_entries_nonempty c10A c10B c10S c10T).2 "S"
     [SchemaChange.requiredChanged [] ["r"]] (by decide)⟩
